import Mathlib

/-!
# Verification of the fullstack-otp core

A shallow embedding of the HOTP/TOTP engine, the replay-guard/session layer
and the verification flow of the `fullstack-otp` repository, with theorems
settling the specification claims about them.

Machine words are modelled as `Nat` with explicit reduction modulo `2^32`
resp. `2^64`; byte strings are `List Nat` (each element a byte value);
fallible operations return `Option`/`Except`; word operations apply the
bitwise `Nat` operations with an explicit `% 2^w` wherever the source
works in a fixed-width integer type.
-/

set_option maxRecDepth 8000000

set_option maxHeartbeats 4000000

namespace FullstackOtp

/-! ## Bytes and words -/

/-- `2^32`, the modulus for 32-bit words. -/
def m32 : Nat := 4294967296

/-- `2^64`, the modulus for 64-bit words. -/
def m64 : Nat := 18446744073709551616

/-- All-ones 32-bit mask, used for bitwise complement on 32-bit words. -/
def mask32 : Nat := 4294967295

/-- All-ones 64-bit mask, used for bitwise complement on 64-bit words. -/
def mask64 : Nat := 18446744073709551615

/-- Right rotation of a 32-bit word by `n ≤ 32` bits. -/
def rotr32 (x n : Nat) : Nat := ((x >>> n) ||| (x <<< (32 - n))) % m32

/-- Right rotation of a 64-bit word by `n ≤ 64` bits. -/
def rotr64 (x n : Nat) : Nat := ((x >>> n) ||| (x <<< (64 - n))) % m64

/-- Left rotation of a 32-bit word by `n ≤ 32` bits. -/
def rotl32 (x n : Nat) : Nat := rotr32 x (32 - n)

/-- Big-endian bytes of a value, fixed width `k` (mirrors `binary.BigEndian.PutUint64`
and the word serialisation inside the hash functions). -/
def natToBytesBE : Nat → Nat → List Nat
  | 0, _ => []
  | k + 1, v => natToBytesBE k (v / 256) ++ [v % 256]

/-- Big-endian value of a byte list. -/
def bytesToNatBE (l : List Nat) : Nat := l.foldl (fun acc b => acc * 256 + b) 0

/-- Split a byte list into consecutive chunks of size `sz` (fuel-driven). -/
def chunksAux (sz : Nat) : Nat → List Nat → List (List Nat)
  | 0, _ => []
  | _, [] => []
  | fuel + 1, l => l.take sz :: chunksAux sz fuel (l.drop sz)

/-- Split a byte list into consecutive chunks of size `sz`. -/
def chunks (sz : Nat) (l : List Nat) : List (List Nat) := chunksAux sz l.length l

/-- The first `n` big-endian words of `wb` bytes each from a byte list. -/
def bytesToWordsBE (wb : Nat) : Nat → List Nat → List Nat
  | 0, _ => []
  | _, [] => []
  | fuel + 1, l => bytesToNatBE (l.take wb) :: bytesToWordsBE wb fuel (l.drop wb)

/-! ## SHA-256 (FIPS 180-4), as used through Go's `crypto/sha256` -/

/-- The 64 SHA-256 round constants. -/
def sha256K : List Nat := [
  1116352408, 1899447441, 3049323471, 3921009573,
  961987163, 1508970993, 2453635748, 2870763221,
  3624381080, 310598401, 607225278, 1426881987,
  1925078388, 2162078206, 2614888103, 3248222580,
  3835390401, 4022224774, 264347078, 604807628,
  770255983, 1249150122, 1555081692, 1996064986,
  2554220882, 2821834349, 2952996808, 3210313671,
  3336571891, 3584528711, 113926993, 338241895,
  666307205, 773529912, 1294757372, 1396182291,
  1695183700, 1986661051, 2177026350, 2456956037,
  2730485921, 2820302411, 3259730800, 3345764771,
  3516065817, 3600352804, 4094571909, 275423344,
  430227734, 506948616, 659060556, 883997877,
  958139571, 1322822218, 1537002063, 1747873779,
  1955562222, 2024104815, 2227730452, 2361852424,
  2428436474, 2756734187, 3204031479, 3329325298]

/-- Working state of the SHA-256 (and SHA-512) compression function: eight words. -/
structure Hash8 where
  a : Nat
  b : Nat
  c : Nat
  d : Nat
  e : Nat
  f : Nat
  g : Nat
  hv : Nat
  deriving Repr, DecidableEq

/-- SHA-256 initial hash value. -/
def sha256Init : Hash8 :=
  ⟨1779033703, 3144134277, 1013904242, 2773480762,
   1359893119, 2600822924, 528734635, 1541459225⟩

/-- SHA-256 message-schedule sigma-0. -/
def sha256s0 (w : Nat) : Nat := (rotr32 w 7) ^^^ (rotr32 w 18) ^^^ (w >>> 3)

/-- SHA-256 message-schedule sigma-1. -/
def sha256s1 (w : Nat) : Nat := (rotr32 w 17) ^^^ (rotr32 w 19) ^^^ (w >>> 10)

/-- Extend the 16 block words to the full 64-entry SHA-256 message schedule. -/
def sha256Extend : Nat → List Nat → List Nat
  | 0, w => w
  | n + 1, w =>
    let l := w.length
    let x := (sha256s1 (w.getD (l - 2) 0) + w.getD (l - 7) 0 +
              sha256s0 (w.getD (l - 15) 0) + w.getD (l - 16) 0) % m32
    sha256Extend n (w ++ [x])

/-- One SHA-256 round, consuming a `(K, W)` pair. -/
def sha256Round (st : Hash8) (kw : Nat × Nat) : Hash8 :=
  let s1 := (rotr32 st.e 6) ^^^ (rotr32 st.e 11) ^^^ (rotr32 st.e 25)
  let ch := (st.e &&& st.f) ^^^ ((st.e ^^^ mask32) &&& st.g)
  let t1 := (st.hv + s1 + ch + kw.1 + kw.2) % m32
  let s0 := (rotr32 st.a 2) ^^^ (rotr32 st.a 13) ^^^ (rotr32 st.a 22)
  let mj := (st.a &&& st.b) ^^^ (st.a &&& st.c) ^^^ (st.b &&& st.c)
  let t2 := (s0 + mj) % m32
  ⟨(t1 + t2) % m32, st.a, st.b, st.c, (st.d + t1) % m32, st.e, st.f, st.g⟩

/-- SHA-256 compression of one 64-byte block into the running state. -/
def sha256Compress (st : Hash8) (block : List Nat) : Hash8 :=
  let w := sha256Extend 48 (bytesToWordsBE 4 16 block)
  let r := (sha256K.zip w).foldl sha256Round st
  ⟨(st.a + r.a) % m32, (st.b + r.b) % m32, (st.c + r.c) % m32, (st.d + r.d) % m32,
   (st.e + r.e) % m32, (st.f + r.f) % m32, (st.g + r.g) % m32, (st.hv + r.hv) % m32⟩

/-- Merkle–Damgård padding with a 64-bit big-endian bit length (SHA-1/SHA-256). -/
def shaPad64 (msg : List Nat) : List Nat :=
  msg ++ 128 :: List.replicate ((64 - (msg.length + 9) % 64) % 64) 0 ++
    natToBytesBE 8 ((msg.length * 8) % m64)

/-- Serialise a `Hash8` state as big-endian bytes, `wb` bytes per word. -/
def hash8Bytes (wb : Nat) (st : Hash8) : List Nat :=
  natToBytesBE wb st.a ++ natToBytesBE wb st.b ++ natToBytesBE wb st.c ++
  natToBytesBE wb st.d ++ natToBytesBE wb st.e ++ natToBytesBE wb st.f ++
  natToBytesBE wb st.g ++ natToBytesBE wb st.hv

/-- SHA-256 of a byte string: a 32-byte digest. -/
def sha256 (msg : List Nat) : List Nat :=
  hash8Bytes 4 ((chunks 64 (shaPad64 msg)).foldl sha256Compress sha256Init)

/-! ## SHA-512 (FIPS 180-4), as used through Go's `crypto/sha512` -/

/-- The 80 SHA-512 round constants. -/
def sha512K : List Nat := [
  4794697086780616226, 8158064640168781261, 13096744586834688815,
  16840607885511220156, 4131703408338449720, 6480981068601479193,
  10538285296894168987, 12329834152419229976, 15566598209576043074,
  1334009975649890238, 2608012711638119052, 6128411473006802146,
  8268148722764581231, 9286055187155687089, 11230858885718282805,
  13951009754708518548, 16472876342353939154, 17275323862435702243,
  1135362057144423861, 2597628984639134821, 3308224258029322869,
  5365058923640841347, 6679025012923562964, 8573033837759648693,
  10970295158949994411, 12119686244451234320, 12683024718118986047,
  13788192230050041572, 14330467153632333762, 15395433587784984357,
  489312712824947311, 1452737877330783856, 2861767655752347644,
  3322285676063803686, 5560940570517711597, 5996557281743188959,
  7280758554555802590, 8532644243296465576, 9350256976987008742,
  10552545826968843579, 11727347734174303076, 12113106623233404929,
  14000437183269869457, 14369950271660146224, 15101387698204529176,
  15463397548674623760, 17586052441742319658, 1182934255886127544,
  1847814050463011016, 2177327727835720531, 2830643537854262169,
  3796741975233480872, 4115178125766777443, 5681478168544905931,
  6601373596472566643, 7507060721942968483, 8399075790359081724,
  8693463985226723168, 9568029438360202098, 10144078919501101548,
  10430055236837252648, 11840083180663258601, 13761210420658862357,
  14299343276471374635, 14566680578165727644, 15097957966210449927,
  16922976911328602910, 17689382322260857208, 500013540394364858,
  748580250866718886, 1242879168328830382, 1977374033974150939,
  2944078676154940804, 3659926193048069267, 4368137639120453308,
  4836135668995329356, 5532061633213252278, 6448918945643986474,
  6902733635092675308, 7801388544844847127]

/-- SHA-512 initial hash value. -/
def sha512Init : Hash8 :=
  ⟨7640891576956012808, 13503953896175478587, 4354685564936845355,
   11912009170470909681, 5840696475078001361, 11170449401992604703,
   2270897969802886507, 6620516959819538809⟩

/-- SHA-512 message-schedule sigma-0. -/
def sha512s0 (w : Nat) : Nat := (rotr64 w 1) ^^^ (rotr64 w 8) ^^^ (w >>> 7)

/-- SHA-512 message-schedule sigma-1. -/
def sha512s1 (w : Nat) : Nat := (rotr64 w 19) ^^^ (rotr64 w 61) ^^^ (w >>> 6)

/-- Extend the 16 block words to the full 80-entry SHA-512 message schedule. -/
def sha512Extend : Nat → List Nat → List Nat
  | 0, w => w
  | n + 1, w =>
    let l := w.length
    let x := (sha512s1 (w.getD (l - 2) 0) + w.getD (l - 7) 0 +
              sha512s0 (w.getD (l - 15) 0) + w.getD (l - 16) 0) % m64
    sha512Extend n (w ++ [x])

/-- One SHA-512 round, consuming a `(K, W)` pair. -/
def sha512Round (st : Hash8) (kw : Nat × Nat) : Hash8 :=
  let s1 := (rotr64 st.e 14) ^^^ (rotr64 st.e 18) ^^^ (rotr64 st.e 41)
  let ch := (st.e &&& st.f) ^^^ ((st.e ^^^ mask64) &&& st.g)
  let t1 := (st.hv + s1 + ch + kw.1 + kw.2) % m64
  let s0 := (rotr64 st.a 28) ^^^ (rotr64 st.a 34) ^^^ (rotr64 st.a 39)
  let mj := (st.a &&& st.b) ^^^ (st.a &&& st.c) ^^^ (st.b &&& st.c)
  let t2 := (s0 + mj) % m64
  ⟨(t1 + t2) % m64, st.a, st.b, st.c, (st.d + t1) % m64, st.e, st.f, st.g⟩

/-- SHA-512 compression of one 128-byte block into the running state. -/
def sha512Compress (st : Hash8) (block : List Nat) : Hash8 :=
  let w := sha512Extend 64 (bytesToWordsBE 8 16 block)
  let r := (sha512K.zip w).foldl sha512Round st
  ⟨(st.a + r.a) % m64, (st.b + r.b) % m64, (st.c + r.c) % m64, (st.d + r.d) % m64,
   (st.e + r.e) % m64, (st.f + r.f) % m64, (st.g + r.g) % m64, (st.hv + r.hv) % m64⟩

/-- Merkle–Damgård padding with a 128-bit big-endian bit length (SHA-512). -/
def shaPad128 (msg : List Nat) : List Nat :=
  msg ++ 128 :: List.replicate ((128 - (msg.length + 17) % 128) % 128) 0 ++
    natToBytesBE 16 (msg.length * 8)

/-- SHA-512 of a byte string: a 64-byte digest. -/
def sha512 (msg : List Nat) : List Nat :=
  hash8Bytes 8 ((chunks 128 (shaPad128 msg)).foldl sha512Compress sha512Init)

/-! ## SHA-1 (FIPS 180-4), the 160-bit digest family of the spec -/

/-- Working state of the SHA-1 compression function: five words. -/
structure Hash5 where
  a : Nat
  b : Nat
  c : Nat
  d : Nat
  e : Nat
  deriving Repr, DecidableEq

/-- SHA-1 initial hash value. -/
def sha1Init : Hash5 := ⟨1732584193, 4023233417, 2562383102, 271733878, 3285377520⟩

/-- Extend the 16 block words to the full 80-entry SHA-1 message schedule. -/
def sha1Extend : Nat → List Nat → List Nat
  | 0, w => w
  | n + 1, w =>
    let l := w.length
    let x := rotl32 ((w.getD (l - 3) 0) ^^^ (w.getD (l - 8) 0) ^^^
                     (w.getD (l - 14) 0) ^^^ (w.getD (l - 16) 0)) 1
    sha1Extend n (w ++ [x])

/-- The SHA-1 round function `f` for round `i`. -/
def sha1F (i b c d : Nat) : Nat :=
  if i < 20 then (b &&& c) ||| ((b ^^^ mask32) &&& d)
  else if i < 40 then b ^^^ c ^^^ d
  else if i < 60 then (b &&& c) ||| (b &&& d) ||| (c &&& d)
  else b ^^^ c ^^^ d

/-- The SHA-1 round constant for round `i`. -/
def sha1KAt (i : Nat) : Nat :=
  if i < 20 then 1518500249
  else if i < 40 then 1859775393
  else if i < 60 then 2400959708
  else 3395469782

/-- One SHA-1 round, consuming a `(round index, W)` pair. -/
def sha1Round (st : Hash5) (iw : Nat × Nat) : Hash5 :=
  let t := (rotl32 st.a 5 + sha1F iw.1 st.b st.c st.d + st.e + sha1KAt iw.1 + iw.2) % m32
  ⟨t, st.a, rotl32 st.b 30, st.c, st.d⟩

/-- SHA-1 compression of one 64-byte block into the running state. -/
def sha1Compress (st : Hash5) (block : List Nat) : Hash5 :=
  let w := sha1Extend 64 (bytesToWordsBE 4 16 block)
  let r := ((List.range 80).zip w).foldl sha1Round st
  ⟨(st.a + r.a) % m32, (st.b + r.b) % m32, (st.c + r.c) % m32,
   (st.d + r.d) % m32, (st.e + r.e) % m32⟩

/-- SHA-1 of a byte string: a 20-byte digest. -/
def sha1 (msg : List Nat) : List Nat :=
  let st := (chunks 64 (shaPad64 msg)).foldl sha1Compress sha1Init
  natToBytesBE 4 st.a ++ natToBytesBE 4 st.b ++ natToBytesBE 4 st.c ++
  natToBytesBE 4 st.d ++ natToBytesBE 4 st.e

/-! ## HMAC (RFC 2104), as used through Go's `crypto/hmac` -/

/-- A keyed-hash family: the underlying hash function together with its
block size, mirroring the `func() hash.Hash` constructor argument of the
source (`hash.Hash.BlockSize` drives HMAC key preparation). -/
structure Hasher where
  hash : List Nat → List Nat
  block : Nat

/-- The SHA-1 hasher (160-bit family). -/
def hasherSha1 : Hasher := ⟨sha1, 64⟩

/-- The SHA-256 hasher (`crypto/sha256`). -/
def hasherSha256 : Hasher := ⟨sha256, 64⟩

/-- The SHA-512 hasher (`crypto/sha512`). -/
def hasherSha512 : Hasher := ⟨sha512, 128⟩

/-- The three interchangeable keyed-hash families of the design
(160-bit, 256-bit and 512-bit digests). -/
def supportedHashers : List Hasher := [hasherSha1, hasherSha256, hasherSha512]

/-- HMAC: keys longer than the block size are first hashed, the key is
zero-padded to the block size, and the digest is
`H((key ⊕ opad) ++ H((key ⊕ ipad) ++ msg))`. -/
def hmac (hs : Hasher) (key msg : List Nat) : List Nat :=
  let k0 := if hs.block < key.length then hs.hash key else key
  let k := k0 ++ List.replicate (hs.block - k0.length) 0
  hs.hash ((k.map (fun b => b ^^^ 92)) ++ hs.hash ((k.map (fun b => b ^^^ 54)) ++ msg))

/-! ## Strings as bytes

Go strings are byte strings; the secrets and codes handled by the program
are ASCII, so a `String` is embedded as the list of its characters' code
points. -/

/-- The bytes of an (ASCII) string, mirroring Go's `[]byte(s)`. -/
def strBytes (s : String) : List Nat := s.data.map Char.toNat

/-- ASCII whitespace recognised by `strings.TrimSpace` / `unicode.IsSpace`:
space, `\t`, `\n`, `\v`, `\f`, `\r`. -/
def isWSByte (b : Nat) : Bool := b == 32 || b == 9 || b == 10 || b == 11 || b == 12 || b == 13

/-- ASCII upper-casing of one byte (`strings.ToUpper` on ASCII input). -/
def upByte (b : Nat) : Nat := if 97 ≤ b ∧ b ≤ 122 then b - 32 else b

/-- `strings.TrimSpace`: drop whitespace from both ends. -/
def trimBytes (l : List Nat) : List Nat :=
  ((l.dropWhile isWSByte).reverse.dropWhile isWSByte).reverse

/-! ## Base32 (`encoding/base32`, `StdEncoding`) -/

/-- Value of one standard-alphabet base32 character (`A`–`Z`, `2`–`7`). -/
def b32Val (b : Nat) : Option Nat :=
  if 65 ≤ b ∧ b ≤ 90 then some (b - 65)
  else if 50 ≤ b ∧ b ≤ 55 then some (b - 50 + 26)
  else none

/-- Values of a run of base32 characters, failing on the first invalid one. -/
def b32Vals : List Nat → Option (List Nat)
  | [] => some []
  | b :: bs =>
    match b32Val b, b32Vals bs with
    | some v, some vs => some (v :: vs)
    | _, _ => none

/-- How many bytes a final base32 quantum of `k` data characters carries;
`0` marks the invalid lengths (`k ∈ {0, 1, 3, 6}`). -/
def b32TailBytes (k : Nat) : Nat :=
  if k = 8 then 5 else if k = 7 then 4 else if k = 5 then 3
  else if k = 4 then 2 else if k = 2 then 1 else 0

/-- Decode a final 8-character base32 quantum, `=`-padding allowed. -/
def b32DecodeLast (cs : List Nat) : Option (List Nat) :=
  let dataPart := cs.takeWhile (fun b => !(b == 61))
  if (cs.drop dataPart.length).all (fun b => b == 61) then
    match b32Vals dataPart with
    | some vs =>
      let k := vs.length
      let m := b32TailBytes k
      if m = 0 then none
      else some ((natToBytesBE 5 ((vs.foldl (fun acc v => acc * 32 + v) 0) <<< (40 - 5 * k))).take m)
    | none => none
  else none

/-- Decode base32 quanta of 8 characters each; only the final quantum may
carry padding. -/
def b32DecodeAux : Nat → List Nat → Option (List Nat)
  | _, [] => some []
  | 0, _ => none
  | fuel + 1, cs =>
    if cs.length < 8 then none
    else
      let chunk := cs.take 8
      let rest := cs.drop 8
      if rest.isEmpty then b32DecodeLast chunk
      else
        match b32Vals chunk, b32DecodeAux fuel rest with
        | some vs, some bs =>
          some (natToBytesBE 5 (vs.foldl (fun acc v => acc * 32 + v) 0) ++ bs)
        | _, _ => none

/-- `base32.StdEncoding.DecodeString`: newlines are ignored, the input must
consist of full 8-character quanta over the standard alphabet, with `=`
padding only closing the final quantum. -/
def base32Decode (bytes : List Nat) : Option (List Nat) :=
  let cs := bytes.filter (fun b => !(b == 13) && !(b == 10))
  b32DecodeAux cs.length cs

/-- One character of the standard base32 alphabet. -/
def b32Char (v : Nat) : Char :=
  if v < 26 then Char.ofNat (65 + v) else Char.ofNat (50 + (v - 26))

/-- How many characters a base32 quantum of `r` input bytes yields before padding. -/
def b32KeepChars (r : Nat) : Nat :=
  if r = 5 then 8 else if r = 4 then 7 else if r = 3 then 5 else if r = 2 then 4 else 2

/-- Encode base32 quanta of up to 5 bytes each, `=`-padding the tail. -/
def b32EncodeAux : Nat → List Nat → List Char
  | _, [] => []
  | 0, _ => []
  | fuel + 1, l =>
    let chunk := l.take 5
    let r := chunk.length
    let n := (chunk.foldl (fun acc b => acc * 256 + b) 0) <<< (8 * (5 - r))
    let cs := (List.range 8).map (fun i => b32Char ((n >>> (35 - 5 * i)) &&& 31))
    let keep := b32KeepChars r
    (cs.take keep ++ List.replicate (8 - keep) '=') ++ b32EncodeAux fuel (l.drop 5)

/-- `base32.StdEncoding.EncodeToString`. -/
def base32Encode (l : List Nat) : String := String.mk (b32EncodeAux l.length l)

/-! ## Base64 (`encoding/base64`, `StdEncoding`) -/

/-- One character of the standard base64 alphabet, which includes `+` and `/`. -/
def b64Char (v : Nat) : Char :=
  if v < 26 then Char.ofNat (65 + v)
  else if v < 52 then Char.ofNat (97 + (v - 26))
  else if v < 62 then Char.ofNat (48 + (v - 52))
  else if v = 62 then '+'
  else '/'

/-- How many characters a base64 quantum of `r` input bytes yields before padding. -/
def b64KeepChars (r : Nat) : Nat := if r = 3 then 4 else if r = 2 then 3 else 2

/-- Encode base64 quanta of up to 3 bytes each, `=`-padding the tail. -/
def b64EncodeAux : Nat → List Nat → List Char
  | _, [] => []
  | 0, _ => []
  | fuel + 1, l =>
    let chunk := l.take 3
    let r := chunk.length
    let n := (chunk.foldl (fun acc b => acc * 256 + b) 0) <<< (8 * (3 - r))
    let cs := (List.range 4).map (fun i => b64Char ((n >>> (18 - 6 * i)) &&& 63))
    let keep := b64KeepChars r
    (cs.take keep ++ List.replicate (4 - keep) '=') ++ b64EncodeAux fuel (l.drop 3)

/-- `base64.StdEncoding.EncodeToString`. -/
def base64Encode (l : List Nat) : String := String.mk (b64EncodeAux l.length l)

/-! ## HOTP core (`internal/otp/otp.go`) -/

/-- The error outcomes of the OTP engine.  `outOfBounds` stands for the one
way `Generate` could terminate abnormally: an out-of-range digest index
(a runtime panic in the source, which has no error return for it). -/
inductive OtpError where
  | invalidCounter
  | invalidSecretEncoding
  | codeLengthMismatch
  | outOfBounds
  deriving Repr, DecidableEq

/-- `transformSecret`: base32-decode the textual shared secret. -/
def transformSecret (sharedSecret : String) : Option (List Nat) :=
  base32Decode (strBytes sharedSecret)

/-- `transformCounter`: the counter as 8 big-endian bytes of `uint64(counter)`
(two's-complement wraparound for negative input). -/
def transformCounter (counter : Int) : List Nat :=
  natToBytesBE 8 (counter.emod (2 ^ 64)).toNat

/-- The decimal digit character for `n < 10`. -/
def digitChar (n : Nat) : Char := Char.ofNat (48 + n)

/-- Decimal digit characters of `n`, most significant first (fuel-driven;
`fuel ≥ 1` and at least the number of digits suffices). -/
def natDecDigits : Nat → Nat → List Char
  | 0, _ => []
  | fuel + 1, n => if n < 10 then [digitChar n] else natDecDigits fuel (n / 10) ++ [digitChar (n % 10)]

/-- `pad`: format `otp` in decimal, left-padded with zeroes to width `digits`
(Go's `fmt.Sprintf("%0*d", digits, otp)` for non-negative input). -/
def pad (otp digits : Nat) : String :=
  let ds := natDecDigits (otp + 1) otp
  String.mk (List.replicate (digits - ds.length) '0' ++ ds)

/-- RFC 4226 dynamic truncation:
`offset := digest[len-1] & 15` and the 31-bit big-endian integer formed from
`digest[offset..offset+3]` with the top bit cleared.  The source indexes the
digest unconditionally (panicking if out of range); here each access is
checked, `none` standing for the panic. -/
def dynamicTruncate (digest : List Nat) : Option Nat :=
  match digest.getLast? with
  | none => none
  | some last =>
    let offset := last &&& 15
    match digest[offset]?, digest[offset + 1]?, digest[offset + 2]?, digest[offset + 3]? with
    | some b0, some b1, some b2, some b3 =>
      some (((b0 &&& 127) <<< 24) ||| ((b1 &&& 255) <<< 16) ||| ((b2 &&& 255) <<< 8) ||| (b3 &&& 255))
    | _, _, _, _ => none

/-- `otp.Generate` (HOTP): reject negative counters, decode the secret,
HMAC the 8-byte big-endian counter, dynamically truncate, reduce modulo
`10^digits` and zero-pad. -/
def Generate (counter : Int) (digits : Nat) (secret : String) (hasher : Hasher) :
    Except OtpError String :=
  if counter < 0 then .error .invalidCounter
  else
    let counterInBytes := transformCounter counter
    match transformSecret secret with
    | none => .error .invalidSecretEncoding
    | some secretInBytes =>
      let digest := hmac hasher secretInBytes counterInBytes
      match dynamicTruncate digest with
      | none => .error .outOfBounds
      | some t => .ok (pad (t % 10 ^ digits) digits)

/-! ## TOTP wrapper (the final `otp.go` of the repository) -/

/-- `TOTPConfig`. -/
structure TOTPConfig where
  Secret : String
  Period : Int
  Timestamp : Int
  Digits : Nat
  Hasher : Hasher

/-- `TOTPValidateConfig`. -/
structure TOTPValidateConfig where
  Secret : String
  Period : Int
  Timestamp : Int
  Digits : Nat
  Hasher : Hasher
  Window : Int

/-- The secret normalisation of the TOTP `Generate`: trim surrounding
whitespace, then upper-case (ASCII). -/
def normalizeSecret (s : String) : List Nat := (trimBytes (strBytes s)).map upByte

/-- The body of the TOTP `Generate` for an explicit counter value: normalise
and decode the secret, HMAC the counter bytes, truncate and pad. -/
def totpGenerateAt (o : TOTPConfig) (counter : Int) : Except OtpError String :=
  let counterInBytes := transformCounter counter
  match base32Decode (normalizeSecret o.Secret) with
  | none => .error .invalidSecretEncoding
  | some secretInBytes =>
    let digest := hmac o.Hasher secretInBytes counterInBytes
    match dynamicTruncate digest with
    | none => .error .outOfBounds
    | some t => .ok (pad (t % 10 ^ o.Digits) o.Digits)

/-- The TOTP `Generate`: `counter := Timestamp / Period` (Go division
truncates toward zero), then the HOTP body. -/
def totpGenerate (o : TOTPConfig) : Except OtpError String :=
  totpGenerateAt o (o.Timestamp.tdiv o.Period)

/-- The loop of the TOTP `Verify`, faithful to the source: the loop counter
`i` runs from `counter - Window` to `counter + Window`, but the generated
token inside the body is built from the unchanged `options` (the bound `i`
is never passed on), so every iteration regenerates the code of the current
counter.  `subtle.ConstantTimeCompare == 1` is byte equality. -/
def verifyLoop (o : TOTPValidateConfig) (passcode : String) : Nat → Int → Except OtpError Bool
  | 0, _ => .ok false
  | fuel + 1, i =>
    match totpGenerate ⟨o.Secret, o.Period, o.Timestamp, o.Digits, o.Hasher⟩ with
    | .error e => .error e
    | .ok generatedToken =>
      if passcode == generatedToken then .ok true
      else verifyLoop o passcode fuel (i + 1)

/-- The TOTP `Verify`: trim the candidate, require its length to equal
`Digits`, then scan `2*Window + 1` counters ascending from
`counter - Window` (no iterations when `Window < 0`). -/
def Verify (otp : String) (o : TOTPValidateConfig) : Except OtpError Bool :=
  let passcode := String.mk ((trimBytes (strBytes otp)).map Char.ofNat)
  let counter := o.Timestamp.tdiv o.Period
  if passcode.data.length = o.Digits then
    verifyLoop o passcode ((2 * o.Window + 1).toNat) (counter - o.Window)
  else .error .codeLengthMismatch

/-- Modelled from the spec: §4.2 `Verify` — the loop of the window scan as
the specification words it, "at each `i` recomputes the expected code via
HOTP Core" for the counter `i` itself. -/
def specVerifyLoop (o : TOTPValidateConfig) (passcode : String) : Nat → Int → Except OtpError Bool
  | 0, _ => .ok false
  | fuel + 1, i =>
    match totpGenerateAt ⟨o.Secret, o.Period, o.Timestamp, o.Digits, o.Hasher⟩ i with
    | .error e => .error e
    | .ok generatedToken =>
      if passcode == generatedToken then .ok true
      else specVerifyLoop o passcode fuel (i + 1)

/-- Modelled from the spec: §4.2 `Verify` — trim the candidate, check its
length, then test the counters `counter - Window` through `counter + Window`
in ascending order, each against the code recomputed for that counter. -/
def specVerify (otp : String) (o : TOTPValidateConfig) : Except OtpError Bool :=
  let passcode := String.mk ((trimBytes (strBytes otp)).map Char.ofNat)
  let counter := o.Timestamp.tdiv o.Period
  if passcode.data.length = o.Digits then
    specVerifyLoop o passcode ((2 * o.Window + 1).toNat) (counter - o.Window)
  else .error .codeLengthMismatch

/-- The fixed phrase whose base32 encoding is the shared secret of the
reference tests. -/
def testPhrase : String := "The quick brown fox jumps over the lazy dog."

/-- The shared secret of the reference tests: the base32 encoding of
`testPhrase`. -/
def testSecret : String := base32Encode (strBytes testPhrase)

/-! ## Session store (`session.go` of `internal/session`, final version)

The Redis client is modelled as the response it returns: `ok v` a present
value, `nil` the `redis.Nil` reply for a missing or expired key, `failure e`
a transport/store error. -/

/-- One Redis reply. -/
inductive RedisResult where
  | ok (v : String)
  | nil
  | failure (e : String)
  deriving Repr, DecidableEq

/-- The key under which a session is stored: `fmt.Sprintf("sess:%s", sessionID)`. -/
def sessKey (sessionID : String) : String := "sess:" ++ sessionID

/-- `Service.Get`: a `redis.Nil` reply is reported as the empty result with
no error; any other error is propagated; otherwise the stored value is
returned. -/
def sessionGet (store : String → RedisResult) (sessionID : String) : Except String String :=
  match store (sessKey sessionID) with
  | .nil => .ok ""
  | .failure e => .error e
  | .ok v => .ok v

/-- A paginated key-value store as seen by `Service.All`: `pages` are the
successive pages a `SCAN` walk would deliver, `getVal` resolves one key. -/
structure ScanStore where
  pages : List (List String)
  getVal : String → RedisResult

/-- One `SCAN` call: the page at `cursor`, and the follow-up cursor
(`0` when the walk is complete — Redis cursor semantics). -/
def scanPage (st : ScanStore) (cursor : Nat) : List String × Nat :=
  (st.pages.getD cursor [], if cursor + 1 < st.pages.length then cursor + 1 else 0)

/-- The key-collection loop of `Service.All`, faithful to the source: every
iteration issues `SCAN` with cursor `0` (the literal in the call), appends
the returned keys and stops only when the *returned* cursor is `0`.  The
fuel argument bounds the iterations; `none` means the loop did not
terminate within the given fuel. -/
def allScanLoop (st : ScanStore) : Nat → List String → Option (List String)
  | 0, _ => none
  | fuel + 1, acc =>
    let keysAndCursor := scanPage st 0
    let acc2 := acc ++ keysAndCursor.1
    if keysAndCursor.2 = 0 then some acc2 else allScanLoop st fuel acc2

/-- The value-resolution loop of `Service.All`: each collected key is
resolved with `GET`; any error — the `redis.Nil` reply included — aborts
the enumeration with that error and no partial result. -/
def allResolve (st : ScanStore) : List String → Except String (List (String × String))
  | [] => .ok []
  | k :: ks =>
    match st.getVal k with
    | .ok v =>
      match allResolve st ks with
      | .ok rest => .ok ((k, v) :: rest)
      | .error e => .error e
    | .nil => .error "redis: nil"
    | .failure e => .error e

/-- `Service.All`: collect the keys (fuel-bounded, `none` = non-termination),
then resolve each.  The source builds `KeyAndUser` pairs from the scanned
key and the resolved user. -/
def sessionAll (st : ScanStore) (fuel : Nat) : Option (Except String (List (String × String))) :=
  (allScanLoop st fuel []).map (allResolve st)

/-- `GenerateSessionID`: the bytes produced by the secure randomness source
(or its failure) are the input; on success the token is their
`base64.StdEncoding` encoding, and a randomness failure is the only error. -/
def generateSessionID (randBytes : Except String (List Nat)) : Except String String :=
  match randBytes with
  | .error e => .error e
  | .ok b => .ok (base64Encode b)

/-- A URL-safe token character: unreserved URI characters
(RFC 3986: alphanumerics, `-`, `.`, `_`, `~`) plus the `=` pad of the
URL-safe base64 alphabet (RFC 4648 §5, whose data characters are
alphanumerics, `-` and `_`). -/
def urlSafeChar (c : Char) : Bool :=
  c.isAlphanum || c == '-' || c == '.' || c == '_' || c == '~' || c == '='

/-! ## Verification flow (`Configure`'s verification handler, with the
replay guard)

The handler's store state: the blacklist set (`blacklisted_otps`), the
session records, and two injectable store-communication failures, one per
replay-guard operation. -/

/-- The store state seen by the verification handler. -/
structure AppStore where
  blacklisted : List String
  sessions : List (String × String)
  checkFails : Bool
  addFails : Bool
  deriving Repr, DecidableEq

/-- Modelled from the spec: §4.3 `CheckBlacklist` — `CheckBlacklistOTP`'s
implementation is exercised only through its tests (`SIsMember` on
`blacklisted_otps`) and the handler; it reports membership of the code in
the blacklist set, or a store-communication error. -/
def checkBlacklistOTP (st : AppStore) (code : String) : Except String Bool :=
  if st.checkFails then .error "store unavailable"
  else .ok (st.blacklisted.contains code)

/-- Modelled from the spec: §4.3 `Blacklist` — `BlacklistOTP`'s
implementation is exercised only through its tests (`SAdd` on
`blacklisted_otps`) and the handler; it inserts the code into the blacklist
set (idempotently, per Redis set semantics), or fails with a
store-communication error. -/
def blacklistOTP (st : AppStore) (code : String) : Except String AppStore :=
  if st.addFails then .error "store unavailable"
  else .ok (if st.blacklisted.contains code then st
            else { st with blacklisted := code :: st.blacklisted })

/-- `Service.Set` as the handler uses it: record the session. -/
def sessionSet (st : AppStore) (sessionKey username : String) : AppStore :=
  { st with sessions := (sessionKey, username) :: st.sessions }

/-- The outcome of one verification attempt. -/
inductive FlowResult where
  | invalidOTP
  | replayRejected
  | storeError (e : String)
  | accepted (sessionKey : String) (st : AppStore)
  deriving Repr, DecidableEq

/-- The verification handler's decision sequence after the TOTP validation
(`validOTP` is the boolean the time-window validation returned;
`sessionKey` the session ID generated for the success path): reject a
time-invalid code; consult the blacklist, aborting on a store error and
rejecting a blacklisted code; blacklist the accepted code, aborting on a
store error; only then create the session record and answer success. -/
def verificationFlow (st : AppStore) (validOTP : Bool)
    (password username sessionKey : String) : FlowResult :=
  if !validOTP then .invalidOTP
  else
    match checkBlacklistOTP st password with
    | .error e => .storeError e
    | .ok true => .replayRejected
    | .ok false =>
      match blacklistOTP st password with
      | .error e => .storeError e
      | .ok st2 => .accepted sessionKey (sessionSet st2 sessionKey username)

/-! ## Helper lemmas -/

theorem natToBytesBE_length (k : Nat) : ∀ v, (natToBytesBE k v).length = k := by
  induction k with
  | zero => intro v; rfl
  | succ n ih => intro v; simp [natToBytesBE, ih]

theorem sha1_length (m : List Nat) : (sha1 m).length = 20 := by
  simp [sha1, natToBytesBE_length]

theorem sha256_length (m : List Nat) : (sha256 m).length = 32 := by
  simp [sha256, hash8Bytes, natToBytesBE_length]

theorem sha512_length (m : List Nat) : (sha512 m).length = 64 := by
  simp [sha512, hash8Bytes, natToBytesBE_length]

theorem hmac_length (hs : Hasher) (ln : Nat) (hl : ∀ m, (hs.hash m).length = ln)
    (key msg : List Nat) : (hmac hs key msg).length = ln := by
  simp [hmac, hl]

theorem hmac_len_supported (hs : Hasher) (hh : hs ∈ supportedHashers)
    (key msg : List Nat) : 20 ≤ (hmac hs key msg).length := by
  simp [supportedHashers] at hh
  rcases hh with h | h | h <;> subst h
  · rw [hmac_length hasherSha1 20 sha1_length]
  · rw [hmac_length hasherSha256 32 sha256_length]; omega
  · rw [hmac_length hasherSha512 64 sha512_length]; omega

theorem dynamicTruncate_isSome (l : List Nat) (h20 : 20 ≤ l.length) :
    (dynamicTruncate l).isSome = true := by
  have hne : l ≠ [] := by
    intro e
    rw [e] at h20
    simp at h20
  obtain ⟨last, hlast⟩ := Option.isSome_iff_exists.mp (List.getLast?_isSome.mpr hne)
  have hoff : last &&& 15 ≤ 15 := Nat.and_le_right
  have h0 : last &&& 15 < l.length := by omega
  have h1 : (last &&& 15) + 1 < l.length := by omega
  have h2 : (last &&& 15) + 2 < l.length := by omega
  have h3 : (last &&& 15) + 3 < l.length := by omega
  simp only [dynamicTruncate, hlast, List.getElem?_eq_getElem, h0, h1, h2, h3]
  rfl

theorem natDecDigits_length_le (fuel : Nat) : ∀ n d, 1 ≤ d → n < 10 ^ d →
    (natDecDigits fuel n).length ≤ d := by
  induction fuel with
  | zero => intro n d h1 _; simp [natDecDigits]
  | succ f ih =>
    intro n d h1 h2
    by_cases hn : n < 10
    · simp [natDecDigits, hn]
      omega
    · have hd2 : 2 ≤ d := by
        rcases Nat.lt_or_ge d 2 with hlt | hge
        · have : d = 1 := by omega
          subst this
          simp at h2
          omega
        · exact hge
      have hrec : n / 10 < 10 ^ (d - 1) := by
        rw [Nat.div_lt_iff_lt_mul (by norm_num)]
        calc n < 10 ^ d := h2
          _ = 10 ^ (d - 1) * 10 := by
            rw [← pow_succ]
            congr 1
            omega
      have := ih (n / 10) (d - 1) (by omega) hrec
      simp [natDecDigits, hn]
      omega

theorem digitChar_isDigit (n : Nat) (h : n < 10) : (digitChar n).isDigit = true := by
  interval_cases n <;> rfl

theorem natDecDigits_all_digit (fuel : Nat) : ∀ n, (natDecDigits fuel n).all Char.isDigit = true := by
  induction fuel with
  | zero => intro n; rfl
  | succ f ih =>
    intro n
    by_cases hn : n < 10
    · simp [natDecDigits, hn, digitChar_isDigit n hn]
    · simp [natDecDigits, hn, List.all_append, ih (n / 10),
        digitChar_isDigit (n % 10) (Nat.mod_lt n (by norm_num))]

theorem pad_length (v d : Nat) (h1 : 1 ≤ d) (hv : v < 10 ^ d) : (pad v d).length = d := by
  have hle := natDecDigits_length_le (v + 1) v d h1 hv
  show (List.replicate (d - (natDecDigits (v + 1) v).length) '0' ++ natDecDigits (v + 1) v).length = d
  simp
  omega

theorem pad_all_digit (v d : Nat) : (pad v d).data.all Char.isDigit = true := by
  show (List.replicate (d - (natDecDigits (v + 1) v).length) '0' ++ natDecDigits (v + 1) v).all Char.isDigit = true
  simp [List.all_append, natDecDigits_all_digit]

theorem isWSByte_upByte (b : Nat) : isWSByte (upByte b) = isWSByte b := by
  unfold upByte
  split
  · next hab =>
    have h1 : isWSByte (b - 32) = false := by
      simp [isWSByte]
      omega
    have h2 : isWSByte b = false := by
      simp [isWSByte]
      omega
    rw [h1, h2]
  · rfl

theorem map_upByte_dropWhile : ∀ (a b : List Nat), a.map upByte = b.map upByte →
    (a.dropWhile isWSByte).map upByte = (b.dropWhile isWSByte).map upByte := by
  intro a
  induction a with
  | nil =>
    intro b h
    cases b with
    | nil => rfl
    | cons y ys => simp at h
  | cons x xs ih =>
    intro b h
    cases b with
    | nil => simp at h
    | cons y ys =>
      simp only [List.map_cons, List.cons.injEq] at h
      obtain ⟨hxy, hxs⟩ := h
      have hws : isWSByte y = isWSByte x := by
        rw [← isWSByte_upByte x, ← isWSByte_upByte y, hxy]
      rw [List.dropWhile_cons, List.dropWhile_cons, hws]
      by_cases hx : isWSByte x
      · simp only [hx, if_true]
        exact ih ys hxs
      · simp only [hx, if_false, Bool.false_eq_true, List.map_cons]
        rw [hxy, hxs]

theorem map_upByte_trimBytes (a b : List Nat) (h : a.map upByte = b.map upByte) :
    (trimBytes a).map upByte = (trimBytes b).map upByte := by
  unfold trimBytes
  have h1 := map_upByte_dropWhile a b h
  have h2 : (a.dropWhile isWSByte).reverse.map upByte =
      (b.dropWhile isWSByte).reverse.map upByte := by
    rw [List.map_reverse, List.map_reverse, h1]
  have h3 := map_upByte_dropWhile _ _ h2
  rw [List.map_reverse, List.map_reverse, h3]

theorem dropWhile_ws_append : ∀ (pre x : List Nat), pre.all isWSByte = true →
    (pre ++ x).dropWhile isWSByte = x.dropWhile isWSByte := by
  intro pre
  induction pre with
  | nil => intro x _; rfl
  | cons p ps ih =>
    intro x hall
    simp only [List.all_cons, Bool.and_eq_true] at hall
    rw [List.cons_append, List.dropWhile_cons]
    simp only [hall.1, if_true]
    exact ih x hall.2

theorem all_ws_reverse (l : List Nat) (h : l.all isWSByte = true) :
    l.reverse.all isWSByte = true := by
  simp only [List.all_eq_true] at h ⊢
  intro x hx
  exact h x (List.mem_reverse.mp hx)

theorem dropWhile_ws_all (l : List Nat) (h : l.all isWSByte = true) :
    l.dropWhile isWSByte = [] := by
  have := dropWhile_ws_append l [] h
  simpa using this

theorem trimBytes_ws_pad (pre post l : List Nat) (hpre : pre.all isWSByte = true)
    (hpost : post.all isWSByte = true) :
    trimBytes (pre ++ l ++ post) = trimBytes l := by
  unfold trimBytes
  rw [List.append_assoc, dropWhile_ws_append pre (l ++ post) hpre, List.dropWhile_append]
  split
  · next hemp =>
    have hld : l.dropWhile isWSByte = [] := by
      cases hdw : l.dropWhile isWSByte with
      | nil => rfl
      | cons z zs =>
        rw [hdw] at hemp
        simp at hemp
    rw [dropWhile_ws_all post hpost, hld]
  · rw [List.reverse_append, dropWhile_ws_append post.reverse _ (all_ws_reverse post hpost)]

theorem normalizeSecret_invariant (pre post v s : String)
    (hpre : (strBytes pre).all isWSByte = true) (hpost : (strBytes post).all isWSByte = true)
    (hcase : (strBytes v).map upByte = (strBytes s).map upByte) :
    normalizeSecret (pre ++ v ++ post) = normalizeSecret s := by
  unfold normalizeSecret
  have hb : strBytes (pre ++ v ++ post) = strBytes pre ++ strBytes v ++ strBytes post := by
    simp [strBytes, String.data_append]
  rw [hb, trimBytes_ws_pad _ _ _ hpre hpost]
  exact map_upByte_trimBytes _ _ hcase

theorem totpGenerateAt_norm (s1 s2 : String) (p t : Int) (d : Nat) (hs : Hasher) (c : Int)
    (h : normalizeSecret s1 = normalizeSecret s2) :
    totpGenerateAt ⟨s1, p, t, d, hs⟩ c = totpGenerateAt ⟨s2, p, t, d, hs⟩ c := by
  simp only [totpGenerateAt, h]

theorem verifyLoop_norm (vo : TOTPValidateConfig) (s1 s2 pass : String)
    (h : normalizeSecret s1 = normalizeSecret s2) :
    ∀ fuel i, verifyLoop { vo with Secret := s1 } pass fuel i =
      verifyLoop { vo with Secret := s2 } pass fuel i := by
  have hg : totpGenerate ⟨s1, vo.Period, vo.Timestamp, vo.Digits, vo.Hasher⟩ =
      totpGenerate ⟨s2, vo.Period, vo.Timestamp, vo.Digits, vo.Hasher⟩ :=
    totpGenerateAt_norm s1 s2 vo.Period vo.Timestamp vo.Digits vo.Hasher _ h
  intro fuel
  induction fuel with
  | zero => intro i; rfl
  | succ f ih =>
    intro i
    simp only [verifyLoop]
    rw [hg]
    cases totpGenerate ⟨s2, vo.Period, vo.Timestamp, vo.Digits, vo.Hasher⟩ with
    | error e => rfl
    | ok generatedToken =>
      by_cases hp : pass == generatedToken
      · simp [hp]
      · simp only [hp, Bool.false_eq_true, if_false]
        exact ih (i + 1)

theorem totpGenerate_norm (o : TOTPConfig) (s1 s2 : String)
    (h : normalizeSecret s1 = normalizeSecret s2) :
    totpGenerate { o with Secret := s1 } = totpGenerate { o with Secret := s2 } :=
  totpGenerateAt_norm s1 s2 o.Period o.Timestamp o.Digits o.Hasher
    (o.Timestamp.tdiv o.Period) h

theorem verify_norm (vo : TOTPValidateConfig) (s1 s2 otp : String)
    (h : normalizeSecret s1 = normalizeSecret s2) :
    Verify otp { vo with Secret := s1 } = Verify otp { vo with Secret := s2 } := by
  unfold Verify
  dsimp only
  split
  · exact verifyLoop_norm vo s1 s2 _ h _ _
  · rfl

/-! ## The claims -/

/-- C1: the spec says `Verify` scans the counters `counter - window` through
`counter + window` ascending, recomputing the expected code at each counter
`i`.  The source's loop never passes `i` on: every iteration regenerates the
code of the current counter only.  At timestamp 300 (counter 10, period 30,
window 1) the code of counter 9 — inside the spec's window, produced by
`totpGenerateAt` at counter 9, accepted by the spec-modelled scan — is
rejected by the implemented `Verify` with `valid = false`. -/
theorem claim1_verify_window_scan_ignores_counter :
    totpGenerateAt ⟨"ORSXG5A=", 30, 300, 10, hasherSha256⟩ 9 = .ok "1297987004" ∧
    specVerify "1297987004" ⟨"ORSXG5A=", 30, 300, 10, hasherSha256, 1⟩ = .ok true ∧
    Verify "1297987004" ⟨"ORSXG5A=", 30, 300, 10, hasherSha256, 1⟩ = .ok false :=
  ⟨rfl, rfl, rfl⟩

/-- C2 (counterexample): the claim speaks of a 45-character phrase, but the
phrase the reference tests base32-encode into the shared secret has 44
characters. -/
theorem claim2_phrase_length_counterexample :
    testPhrase.length = 44 ∧ ¬ testPhrase.length = 45 := by
  constructor
  · rfl
  · decide

/-- C2 (amended): with the shared secret equal to the base32 encoding of the
44-character reference phrase, `Generate` yields the three reference codes:
counter 54324343 with 10 digits and SHA-512 gives `"0582933009"`, counter
54324351 with 6 digits and SHA-512 gives `"934368"`, and counter 54324354
with 6 digits and SHA-256 gives `"181011"`, each with no error. -/
theorem claim2_reference_vectors :
    Generate 54324343 10 testSecret hasherSha512 = .ok "0582933009" ∧
    Generate 54324351 6 testSecret hasherSha512 = .ok "934368" ∧
    Generate 54324354 6 testSecret hasherSha256 = .ok "181011" :=
  ⟨rfl, rfl, rfl⟩

/-- C3: in the verification flow, a time-valid code is accepted only when the
blacklist check reports it unused; a blacklisted code is rejected as a
replay; a store error in either blacklist operation aborts the flow with an
error; and on first-use acceptance the code is blacklisted and the session
recorded, so the identical second sequential attempt is rejected as a
replay. -/
theorem claim3_replay_guard_flow (st : AppStore) (code username sk sk2 : String)
    (hnb : st.blacklisted.contains code = false)
    (hcf : st.checkFails = false) (haf : st.addFails = false) :
    verificationFlow st false code username sk = .invalidOTP ∧
    verificationFlow { st with blacklisted := code :: st.blacklisted } true code username sk =
      .replayRejected ∧
    verificationFlow { st with checkFails := true } true code username sk =
      .storeError "store unavailable" ∧
    verificationFlow { st with addFails := true } true code username sk =
      .storeError "store unavailable" ∧
    verificationFlow st true code username sk =
      .accepted sk { st with blacklisted := code :: st.blacklisted,
                             sessions := (sk, username) :: st.sessions } ∧
    ({ st with blacklisted := code :: st.blacklisted,
               sessions := (sk, username) :: st.sessions } : AppStore).blacklisted.contains code
      = true ∧
    verificationFlow { st with blacklisted := code :: st.blacklisted,
                               sessions := (sk, username) :: st.sessions } true code username sk2 =
      .replayRejected := by
  have hnb2 : code ∉ st.blacklisted := by simpa using hnb
  refine ⟨rfl, ?_, ?_, ?_, ?_, ?_, ?_⟩
  · simp [verificationFlow, checkBlacklistOTP, hcf]
  · simp [verificationFlow, checkBlacklistOTP]
  · simp [verificationFlow, checkBlacklistOTP, blacklistOTP, hcf, haf, hnb2]
  · simp [verificationFlow, checkBlacklistOTP, blacklistOTP, sessionSet, hcf, haf, hnb2]
  · simp
  · simp [verificationFlow, checkBlacklistOTP, hcf]

/-- C3 (witness): the flow on the empty store with a fresh code. -/
theorem claim3_replay_guard_flow_witness :
    verificationFlow ⟨[], [], false, false⟩ false "123456" "kaede" "sessA" = .invalidOTP ∧
    verificationFlow ⟨["123456"], [], false, false⟩ true "123456" "kaede" "sessA" =
      .replayRejected ∧
    verificationFlow ⟨[], [], true, false⟩ true "123456" "kaede" "sessA" =
      .storeError "store unavailable" ∧
    verificationFlow ⟨[], [], false, true⟩ true "123456" "kaede" "sessA" =
      .storeError "store unavailable" ∧
    verificationFlow ⟨[], [], false, false⟩ true "123456" "kaede" "sessA" =
      .accepted "sessA" ⟨["123456"], [("sessA", "kaede")], false, false⟩ ∧
    (⟨["123456"], [("sessA", "kaede")], false, false⟩ : AppStore).blacklisted.contains "123456"
      = true ∧
    verificationFlow ⟨["123456"], [("sessA", "kaede")], false, false⟩ true "123456" "kaede" "sessB" =
      .replayRejected :=
  claim3_replay_guard_flow ⟨[], [], false, false⟩ "123456" "kaede" "sessA" "sessB" rfl rfl rfl

/-- C4: `Generate` fails with the invalid-counter error for every negative
counter, whatever the digits, secret and hash family; and for every
non-negative counter it fails with the invalid-secret-encoding error
whenever the secret does not base32-decode, whatever the counter, digits
and hash family. -/
theorem claim4_generate_error_classification (counter : Int) (digits : Nat) (secret : String)
    (hasher : Hasher) :
    (counter < 0 → Generate counter digits secret hasher = .error .invalidCounter) ∧
    (0 ≤ counter → transformSecret secret = none →
      Generate counter digits secret hasher = .error .invalidSecretEncoding) := by
  constructor
  · intro hneg
    simp [Generate, hneg]
  · intro hpos hsec
    simp [Generate, Int.not_lt.mpr hpos, hsec]

/-- C4 (witness): counter `-1` is rejected as an invalid counter; the
non-base32 secret of the reference tests is rejected as an encoding error. -/
theorem claim4_generate_error_classification_witness :
    Generate (-1) 6 testSecret hasherSha512 = .error .invalidCounter ∧
    Generate 123 6 "not_base32" hasherSha512 = .error .invalidSecretEncoding :=
  ⟨(claim4_generate_error_classification (-1) 6 testSecret hasherSha512).1 (by decide),
   (claim4_generate_error_classification 123 6 "not_base32" hasherSha512).2 (by decide) rfl⟩

/-- C5: for every non-negative counter, base32-decodable secret, supported
hash family and digit count between 1 and 10, `Generate` succeeds with a
code of exactly `digits` decimal characters (zero-padded on the left). -/
theorem claim5_generate_code_width (counter : Int) (digits : Nat) (secret : String)
    (hs : Hasher) (hc : 0 ≤ counter) (hd1 : 1 ≤ digits) (hd10 : digits ≤ 10)
    (hsec : (transformSecret secret).isSome = true) (hh : hs ∈ supportedHashers) :
    ∃ code, Generate counter digits secret hs = .ok code ∧
      code.length = digits ∧ code.data.all Char.isDigit = true := by
  obtain ⟨key, hkey⟩ := Option.isSome_iff_exists.mp hsec
  have hlen := hmac_len_supported hs hh key (transformCounter counter)
  obtain ⟨t, ht⟩ := Option.isSome_iff_exists.mp (dynamicTruncate_isSome _ hlen)
  refine ⟨pad (t % 10 ^ digits) digits, ?_, ?_, pad_all_digit _ _⟩
  · simp [Generate, Int.not_lt.mpr hc, hkey, ht]
  · exact pad_length _ _ hd1 (Nat.mod_lt _ (pow_pos (by norm_num) digits))

/-- C5 (witness): counter 3, 6 digits, the base32 secret `ORSXG5A=`, SHA-256. -/
theorem claim5_generate_code_width_witness :
    ∃ code, Generate 3 6 "ORSXG5A=" hasherSha256 = .ok code ∧
      code.length = 6 ∧ code.data.all Char.isDigit = true :=
  claim5_generate_code_width 3 6 "ORSXG5A=" hasherSha256 (by decide) (by decide) (by decide)
    rfl (List.Mem.tail _ (List.Mem.head _))

/-- C6: the spec says `All()` follows the scan cursor across however many
pages the store needs.  The source issues every `SCAN` with the literal
cursor `0`, so on a store whose scan needs two pages the loop re-reads the
first page forever: for every iteration bound the collection loop fails to
terminate (`none`), and `All` never returns the claimed enumeration. -/
theorem claim6_all_pagination_diverges :
    ∀ fuel : Nat,
      sessionAll ⟨[["sess:1"], ["sess:2"]], fun _ => .ok "kaede"⟩ fuel = none := by
  have loop : ∀ fuel acc,
      allScanLoop ⟨[["sess:1"], ["sess:2"]], fun _ => .ok "kaede"⟩ fuel acc = none := by
    intro fuel
    induction fuel with
    | zero => intro acc; rfl
    | succ f ih =>
      intro acc
      simp only [allScanLoop, scanPage]
      norm_num
      exact ih _
  intro fuel
  simp [sessionAll, loop]

/-- C7: the spec calls the session token URL-safe, but `GenerateSessionID`
encodes with the standard base64 alphabet: the single random byte `0xFB`
yields the token `+w==`, which contains `+`, a character outside the
URL-safe alphabet.  The second half of the claim holds: a randomness
failure is the only error. -/
theorem claim7_session_id_not_urlsafe :
    generateSessionID (.ok [251]) = .ok "+w==" ∧
    "+w==".data.all urlSafeChar = false ∧
    (∀ e, generateSessionID (.error e) = .error e) :=
  ⟨rfl, by decide, fun _ => rfl⟩

/-- C8 (counterexample): the HOTP-level `Generate` decodes the secret
verbatim: the secret `ORSXG5A=` generates a code, but its variant with a
leading space fails to decode, so the two results differ — the claimed
invariance does not hold for every code-generation operation. -/
theorem claim8_hotp_secret_not_normalized :
    Generate 0 6 "ORSXG5A=" hasherSha256 = .ok "988677" ∧
    Generate 0 6 " ORSXG5A=" hasherSha256 = .error .invalidSecretEncoding ∧
    Generate 0 6 " ORSXG5A=" hasherSha256 ≠ Generate 0 6 "ORSXG5A=" hasherSha256 := by
  have h1 : Generate 0 6 "ORSXG5A=" hasherSha256 = .ok "988677" := rfl
  have h2 : Generate 0 6 " ORSXG5A=" hasherSha256 = .error .invalidSecretEncoding := rfl
  refine ⟨h1, h2, ?_⟩
  rw [h1, h2]
  simp

/-- C8 (amended): the TOTP wrapper's operations are invariant under the
claimed secret variants: surrounding whitespace and letter-case changes are
normalised away (trim, then ASCII upper-casing) before base32 decoding, for
both code generation and verification. -/
theorem claim8_totp_secret_normalisation (o : TOTPConfig) (vo : TOTPValidateConfig)
    (pre post v s otp : String)
    (hpre : (strBytes pre).all isWSByte = true) (hpost : (strBytes post).all isWSByte = true)
    (hcase : (strBytes v).map upByte = (strBytes s).map upByte) :
    totpGenerate { o with Secret := pre ++ v ++ post } = totpGenerate { o with Secret := s } ∧
    Verify otp { vo with Secret := pre ++ v ++ post } = Verify otp { vo with Secret := s } := by
  have hn := normalizeSecret_invariant pre post v s hpre hpost hcase
  exact ⟨totpGenerate_norm o _ _ hn, verify_norm vo _ _ otp hn⟩

/-- C8 (amended, witness): `" orsxg5a= "` and `"ORSXG5A="` are interchangeable
secrets for the TOTP operations. -/
theorem claim8_totp_secret_normalisation_witness :
    totpGenerate ⟨" " ++ "orsxg5a=" ++ " ", 30, 60, 6, hasherSha256⟩ =
      totpGenerate ⟨"ORSXG5A=", 30, 60, 6, hasherSha256⟩ ∧
    Verify "123456" ⟨" " ++ "orsxg5a=" ++ " ", 30, 60, 10, hasherSha256, 1⟩ =
      Verify "123456" ⟨"ORSXG5A=", 30, 60, 10, hasherSha256, 1⟩ :=
  claim8_totp_secret_normalisation ⟨"ORSXG5A=", 30, 60, 6, hasherSha256⟩
    ⟨"ORSXG5A=", 30, 60, 10, hasherSha256, 1⟩ " " " " "orsxg5a=" "ORSXG5A=" "123456"
    (by decide) (by decide) (by decide)

/-- C9: `Get` maps the store's reply faithfully: a `redis.Nil` (missing or
expired key) becomes the empty result with no error, a store failure is
propagated as that error, and a present value is returned — absence is
never an error and a failure is never absence. -/
theorem claim9_get_absent_vs_error (store : String → RedisResult) (sessionID : String) :
    (store (sessKey sessionID) = .nil → sessionGet store sessionID = .ok "") ∧
    (∀ e, store (sessKey sessionID) = .failure e → sessionGet store sessionID = .error e) ∧
    (∀ v, store (sessKey sessionID) = .ok v → sessionGet store sessionID = .ok v) := by
  refine ⟨?_, ?_, ?_⟩
  · intro h
    simp [sessionGet, h]
  · intro e h
    simp [sessionGet, h]
  · intro v h
    simp [sessionGet, h]

/-- C9 (witness): a store with one expired key, one failing key and one
live key. -/
theorem claim9_get_absent_vs_error_witness :
    sessionGet (fun k => if k = "sess:gone" then .nil
      else if k = "sess:down" then .failure "redis: connection refused"
      else .ok "kaede") "gone" = .ok "" ∧
    sessionGet (fun k => if k = "sess:gone" then .nil
      else if k = "sess:down" then .failure "redis: connection refused"
      else .ok "kaede") "down" = .error "redis: connection refused" ∧
    sessionGet (fun k => if k = "sess:gone" then .nil
      else if k = "sess:down" then .failure "redis: connection refused"
      else .ok "kaede") "live" = .ok "kaede" :=
  ⟨(claim9_get_absent_vs_error _ "gone").1 (by decide),
   (claim9_get_absent_vs_error _ "down").2.1 "redis: connection refused" (by decide),
   (claim9_get_absent_vs_error _ "live").2.2 "kaede" (by decide)⟩

/-- C10: for every supported hash family the HMAC digest has at least 20
bytes, so the dynamic-truncation offset (at most 15 from the low nibble of
the last byte) and the four bytes read from it stay in bounds, and
`Generate` can never end in the out-of-bounds outcome. -/
theorem claim10_truncation_in_bounds (hs : Hasher) (key msg : List Nat)
    (counter : Int) (digits : Nat) (secret : String) (hh : hs ∈ supportedHashers) :
    20 ≤ (hmac hs key msg).length ∧
    (dynamicTruncate (hmac hs key msg)).isSome = true ∧
    Generate counter digits secret hs ≠ .error .outOfBounds := by
  refine ⟨hmac_len_supported hs hh key msg,
    dynamicTruncate_isSome _ (hmac_len_supported hs hh key msg), ?_⟩
  by_cases hneg : counter < 0
  · simp [Generate, hneg]
  · cases hsec : transformSecret secret with
    | none => simp [Generate, hneg, hsec]
    | some key2 =>
      obtain ⟨t, ht⟩ := Option.isSome_iff_exists.mp
        (dynamicTruncate_isSome _ (hmac_len_supported hs hh key2 (transformCounter counter)))
      simp [Generate, hneg, hsec, ht]

/-- C10 (witness): SHA-256 on a concrete key and message, and a concrete
`Generate` call. -/
theorem claim10_truncation_in_bounds_witness :
    20 ≤ (hmac hasherSha256 [1] [2]).length ∧
    (dynamicTruncate (hmac hasherSha256 [1] [2])).isSome = true ∧
    Generate 7 6 "AA======" hasherSha256 ≠ .error .outOfBounds :=
  claim10_truncation_in_bounds hasherSha256 [1] [2] 7 6 "AA======"
    (List.Mem.tail _ (List.Mem.head _))

end FullstackOtp
